import Mathlib

/-!
# Verification of the tire-industry monitor analytic core

Shallow embedding of `src/tire_monitor.py` (class `TireIndustryMonitorV8`).

Modelling conventions:
* Prices are exact rationals (`ℚ`); a missing price cell (pandas `NaN` in a
  price column) is `Option ℚ` with `none` for missing.
* Computed per-date series (percent changes, cumulative sums, spread, slope)
  live in `PVal`, a rational extended with `+∞`, `-∞` and `NaN`, mirroring
  the IEEE-754 special values that pandas/numpy produce (division by zero
  yields `±∞`, `0/0` and undefined cells yield `NaN`, comparisons with `NaN`
  are false).
* A data frame is a list of rows over a shared (already aligned) date index,
  as produced by `pd.concat` on the union calendar.
-/

set_option autoImplicit false

/-- Extended value domain for computed series: a rational, `+∞`, `-∞`, or
`NaN`, following IEEE-754 arithmetic as used by pandas/numpy. -/
inductive PVal : Type where
  | num (q : ℚ)
  | pinf
  | ninf
  | nan
  deriving DecidableEq, Repr

namespace PVal

/-- IEEE-style addition: `NaN` absorbs, `+∞ + -∞ = NaN`. -/
def add : PVal → PVal → PVal
  | nan, _ => nan
  | _, nan => nan
  | num a, num b => num (a + b)
  | pinf, ninf => nan
  | ninf, pinf => nan
  | pinf, _ => pinf
  | _, pinf => pinf
  | ninf, _ => ninf
  | _, ninf => ninf

/-- IEEE-style negation. -/
def neg : PVal → PVal
  | num a => num (-a)
  | pinf => ninf
  | ninf => pinf
  | nan => nan

/-- IEEE-style subtraction, `a - b = a + (-b)`. -/
def sub (a b : PVal) : PVal := a.add b.neg

/-- Multiplication by a rational constant (`series * weight` in the source);
`0 * ±∞ = NaN` as in IEEE-754. -/
def smul (q : ℚ) : PVal → PVal
  | num a => num (q * a)
  | nan => nan
  | pinf => if 0 < q then pinf else if q < 0 then ninf else nan
  | ninf => if 0 < q then ninf else if q < 0 then pinf else nan

/-- `v > 0` as numpy evaluates it: false on `NaN`, true on `+∞`. -/
def gt0 : PVal → Bool
  | num q => decide (0 < q)
  | pinf => true
  | ninf => false
  | nan => false

/-- `v < 0` as numpy evaluates it: false on `NaN`, true on `-∞`. -/
def lt0 : PVal → Bool
  | num q => decide (q < 0)
  | pinf => false
  | ninf => true
  | nan => false

end PVal

/-- `a > b` on possibly-missing floats, as pandas evaluates scalar
comparisons: any comparison involving `NaN` is false. -/
def optGt (a b : Option ℚ) : Bool :=
  match a, b with
  | some x, some y => decide (y < x)
  | _, _ => false

/-- Forward fill with the last seen value carried in `last`
(`DataFrame.ffill` on one column). -/
def ffillAux (last : Option ℚ) : List (Option ℚ) → List (Option ℚ)
  | [] => []
  | x :: xs =>
      match x with
      | some v => some v :: ffillAux (some v) xs
      | none => last :: ffillAux last xs

/-- `Series.ffill`: propagate each observation forward over gaps; cells
before the first observation stay missing (pandas does not back-fill). -/
def ffill (l : List (Option ℚ)) : List (Option ℚ) := ffillAux none l

/-- One `pct_change` cell from the previous and current price: `c/p - 1`
with IEEE semantics when the prior price is zero, `NaN` when either cell is
missing. -/
def pctEntry (prev curr : Option ℚ) : PVal :=
  match prev, curr with
  | some p, some c =>
      if p = 0 then
        if 0 < c then PVal.pinf else if c < 0 then PVal.ninf else PVal.nan
      else PVal.num ((c - p) / p)
  | _, _ => PVal.nan

/-- Tail of `pct_change`: each cell against the cell before it. -/
def pctList (prev : Option ℚ) : List (Option ℚ) → List PVal
  | [] => []
  | x :: xs => pctEntry prev x :: pctList x xs

/-- `Series.pct_change()`: the first row is `NaN`, every later row is the
day-over-day relative change versus the previous row. -/
def pctCol : List (Option ℚ) → List PVal
  | [] => []
  | x :: xs => PVal.nan :: pctList x xs

/-- One cell of `.fillna(0)`: a `NaN` cell becomes `0`, anything else
(numbers, infinities) is untouched. -/
def fillnaVal : PVal → PVal
  | PVal.nan => PVal.num 0
  | w => w

/-- `.fillna(0)` on a whole column. -/
def fillna0 (l : List PVal) : List PVal := l.map fillnaVal

/-- `Series.cumsum()` with pandas' default `skipna=True`: a `NaN` input cell
produces a `NaN` output cell but does not poison the running sum. -/
def cumsumFrom (acc : PVal) : List PVal → List PVal
  | [] => []
  | x :: xs =>
      match x with
      | PVal.nan => PVal.nan :: cumsumFrom acc xs
      | v => (acc.add v) :: cumsumFrom (acc.add v) xs

/-- `Series.cumsum()`. -/
def cumsum (l : List PVal) : List PVal := cumsumFrom (PVal.num 0) l

/-- `Series.shift(n)`: `n` leading `NaN`s, then the series truncated. -/
def shiftNaN (n : ℕ) (l : List PVal) : List PVal :=
  List.replicate n PVal.nan ++ l.take (l.length - n)

/-- `Series.diff(n) = series - series.shift(n)`. -/
def diffN (n : ℕ) (l : List PVal) : List PVal :=
  List.zipWith PVal.sub l (shiftNaN n l)

/-- Three-column pointwise combination (the weighted sum of the three cost
factor percent-change columns). -/
def zipWith3 {α β γ δ : Type} (g : α → β → γ → δ) :
    List α → List β → List γ → List δ
  | a :: as, b :: bs, c :: cs => g a b c :: zipWith3 g as bs cs
  | _, _, _ => []

/-- One cell of `Cost_Index_Change`:
`pct.Rubber_TSR20*0.4 + pct.Oil_Brent*0.3 + pct.USD_TWD*0.3`
(left-associated addition, as Python evaluates the source expression). -/
def costCell (r o f : PVal) : PVal :=
  ((PVal.smul (0.4 : ℚ) r).add (PVal.smul (0.3 : ℚ) o)).add
    (PVal.smul (0.3 : ℚ) f)

/-- One row of the aligned data frame: one date's closing prices for the
four columns the analytic core reads (`Bridgestone`, `Oil_Brent`,
`USD_TWD`, `Rubber_TSR20`); `none` is a missing cell. -/
structure Row : Type where
  bridgestone : Option ℚ
  oil : Option ℚ
  fx : Option ℚ
  rubber : Option ℚ
  deriving DecidableEq, Repr

/-- The aligned raw table (`df` in the source): rows over the shared,
ascending union date index. -/
def RawTable : Type := List Row

/-- The columns of `df_chart` that `analyze_strategy` and the claims read,
as computed by `calculate_metrics`. -/
structure Metrics : Type where
  bridgestoneFilled : List (Option ℚ)
  costIndexChange : List PVal
  compositeCostCum : List PVal
  bridgestoneCum : List PVal
  profitSpread : List PVal
  spreadSlope : List PVal
  deriving Repr

/-- `calculate_metrics(df)`:
`df_chart = df.copy().ffill()`, `df_pct = df_chart.pct_change().fillna(0)`,
`Cost_Index_Change = pct.Rubber*0.4 + pct.Oil*0.3 + pct.USD_TWD*0.3`,
`Composite_Cost_Cum = Cost_Index_Change.cumsum()`,
`Bridgestone_Cum = pct.Bridgestone.cumsum()`,
`Profit_Spread = Bridgestone_Cum - Composite_Cost_Cum`,
`Spread_Slope = Profit_Spread.diff(5)`. -/
def calculate_metrics (df : RawTable) : Metrics :=
  let bF := ffill (df.map Row.bridgestone)
  let rP := fillna0 (pctCol (ffill (df.map Row.rubber)))
  let oP := fillna0 (pctCol (ffill (df.map Row.oil)))
  let fP := fillna0 (pctCol (ffill (df.map Row.fx)))
  let bP := fillna0 (pctCol bF)
  let cost := zipWith3 costCell rP oP fP
  let costCum := cumsum cost
  let bCum := cumsum bP
  let spread := List.zipWith PVal.sub bCum costCum
  { bridgestoneFilled := bF
    costIndexChange := cost
    compositeCostCum := costCum
    bridgestoneCum := bCum
    profitSpread := spread
    spreadSlope := diffN 5 spread }

/-- The classifier's decision chain on the already-extracted latest spread,
latest slope and leader trend (`analyze_strategy` lines 120-127 of the
source, with the exact signal title, reason text and embed color of each
branch). -/
def classifyCore (spread slope : PVal) (leaderTrend : Bool) :
    String × String × ℕ :=
  if spread.gt0 && slope.gt0 && leaderTrend then
    ("🟢 **積極買進**", "利潤擴大 + 龍頭領漲", 65280)
  else if spread.gt0 && slope.lt0 then
    ("🟡 **觀望/持有**", "利潤收縮中，動能減弱", 16776960)
  else if spread.lt0 then
    ("🔴 **避開/賣出**", "成本大漲吞噬利潤", 16711680)
  else
    ("⚪ **中立震盪**", "無明確方向", 12370112)

/-- The leader-trend boolean the classifier actually computes:
`df_chart.iloc[-1].Bridgestone > df_chart.iloc[-5].Bridgestone`, on the
forward-filled leader column. -/
def leaderTrendOf (m : Metrics) : Bool :=
  optGt (m.bridgestoneFilled.getD (m.bridgestoneFilled.length - 1) none)
        (m.bridgestoneFilled.getD (m.bridgestoneFilled.length - 5) none)

/-- `analyze_strategy(df_chart)`. `iloc[-1]` and `iloc[-5]` raise
`IndexError` when the table has fewer than 5 rows; the raised exception
(which the caller `run` turns into `sys.exit(1)`) is modelled as `none`. -/
def analyze_strategy (m : Metrics) : Option (String × String × ℕ) :=
  let n := m.bridgestoneFilled.length
  if 5 ≤ n then
    some (classifyCore (m.profitSpread.getD (n - 1) PVal.nan)
                       (m.spreadSlope.getD (n - 1) PVal.nan)
                       (leaderTrendOf m))
  else none

/-- `get_real_latest_data(df, col)` on one raw column given as
`(formatted date, price-or-missing)` pairs: drop the missing cells; with
fewer than two observations return the sentinel `(0.0, 0.0, "N/A")`;
otherwise return the last observation's value, its percent change versus
the observation just before it (IEEE semantics when the prior observation
is zero), and the last observation's date. -/
def get_real_latest_data (col : List (String × Option ℚ)) :
    ℚ × PVal × String :=
  let valid := col.filterMap fun p => p.2.map fun v => (p.1, v)
  if valid.length < 2 then (0, PVal.num 0, "N/A")
  else
    let latest := valid.reverse.getD 0 ("", 0)
    let prev := valid.reverse.getD 1 ("", 0)
    let l := latest.2
    let p := prev.2
    (l,
     (if p = 0 then
        if 0 < l - p then PVal.pinf
        else if l - p < 0 then PVal.ninf else PVal.nan
      else PVal.num ((l - p) / p * 100)),
     latest.1)

/-- The backward walk of `generate_rubber_series`: `prices = [p]`, then
`len(dates) - 1` times append `prices[-1] - draw`, where `draw k` is the
`k`-th number the numpy generator yields after `np.random.seed(42)`. The
seeded draw stream is passed in as `noise`. -/
def rubberSteps (noise : ℕ → ℚ) (p : ℚ) : ℕ → List ℚ
  | 0 => [p]
  | k + 1 =>
      (rubberSteps noise p k).concat
        ((rubberSteps noise p k).getLastD p - noise k)

/-- `generate_rubber_series(dates, current_price)`: build the backward walk
then `prices.reverse()`; the resulting values (indexed by `dates`). -/
def generate_rubber_series (noise : ℕ → ℚ) (dates : List String) (p : ℚ) :
    List ℚ :=
  (rubberSteps noise p (dates.length - 1)).reverse

/-- The four abstract signals named by the specification. -/
inductive Signal : Type where
  | buy
  | hold
  | sell
  | neutral
  deriving DecidableEq, Repr

/-- Modelled from the spec: the §4.4 decision table, evaluated top-down,
first match wins. -/
def specSignal (S K : ℚ) (leader : Bool) : Signal :=
  if 0 < S ∧ 0 < K ∧ leader = true then Signal.buy
  else if 0 < S ∧ K < 0 then Signal.hold
  else if S < 0 then Signal.sell
  else Signal.neutral

/-- Which abstract signal a concrete classifier output triple denotes,
keyed by the signal title string. -/
def signalOfTriple (t : String × String × ℕ) : Signal :=
  if t.1 = "🟢 **積極買進**" then Signal.buy
  else if t.1 = "🟡 **觀望/持有**" then Signal.hold
  else if t.1 = "🔴 **避開/賣出**" then Signal.sell
  else Signal.neutral

/-- The full output triple each abstract signal stands for. -/
def tripleOfSignal : Signal → String × String × ℕ
  | Signal.buy => ("🟢 **積極買進**", "利潤擴大 + 龍頭領漲", 65280)
  | Signal.hold => ("🟡 **觀望/持有**", "利潤收縮中，動能減弱", 16776960)
  | Signal.sell => ("🔴 **避開/賣出**", "成本大漲吞噬利潤", 16711680)
  | Signal.neutral => ("⚪ **中立震盪**", "無明確方向", 12370112)

/-- Modelled from the spec: the leader-trend condition as the claim states
it — the leader's RAW price at the latest date exceeds its RAW price
N = 5 rows earlier. -/
def specLeaderRising (df : RawTable) : Bool :=
  let b := df.map Row.bridgestone
  optGt (b.getD (b.length - 1) none) (b.getD (b.length - 1 - 5) none)

/-- A 5-row table whose leader halves while costs stay flat: the latest
`Profit_Spread` is negative and the slope window is not yet filled. -/
def tblSell5 : RawTable :=
  [⟨some 100, some 1, some 1, some 1⟩,
   ⟨some 50, some 1, some 1, some 1⟩,
   ⟨some 50, some 1, some 1, some 1⟩,
   ⟨some 50, some 1, some 1, some 1⟩,
   ⟨some 50, some 1, some 1, some 1⟩]

/-- The first four rows of `tblSell5`: fewer rows than `iloc[-5]` reaches. -/
def tblSell4 : RawTable := tblSell5.take 4

/-- A 6-row table with fully observed columns; the leader's latest price 7
exceeds the price four rows earlier (5) but not the price five rows
earlier (10). -/
def tblLeader6 : RawTable :=
  [⟨some 10, some 1, some 1, some 1⟩,
   ⟨some 5, some 1, some 1, some 1⟩,
   ⟨some 6, some 1, some 1, some 1⟩,
   ⟨some 6, some 1, some 1, some 1⟩,
   ⟨some 6, some 1, some 1, some 1⟩,
   ⟨some 7, some 1, some 1, some 1⟩]

/-- A 3-row table where the leader is observed from row 0 but the rubber
column only has its first observation at row 2. -/
def tblLateRubber : RawTable :=
  [⟨some 1, none, none, none⟩,
   ⟨some 1, none, none, none⟩,
   ⟨some 1, none, none, some 2⟩]

/-- A 2-row fully observed table with rubber change `+100%`, oil change
`+200%` and FX change `-50%` on the second day. -/
def tblPct2 : RawTable :=
  [⟨some 1, some 1, some 2, some 1⟩,
   ⟨some 1, some 3, some 1, some 2⟩]

/-- A raw column with observations only on 01/01 and 01/03 (01/02 is a
gap), the spec's `[d1, d3]` staleness scenario. -/
def colSkip : List (String × Option ℚ) :=
  [("01/01", some 10), ("01/02", none), ("01/03", some 11)]

/-- A raw column with a single observation. -/
def colOne : List (String × Option ℚ) :=
  [("01/01", some 10), ("01/02", none), ("01/03", none)]

theorem PVal.add_num (a b : ℚ) :
    PVal.add (PVal.num a) (PVal.num b) = PVal.num (a + b) := rfl

theorem PVal.sub_num (a b : ℚ) :
    PVal.sub (PVal.num a) (PVal.num b) = PVal.num (a - b) := by
  simp [PVal.sub, PVal.neg, PVal.add, sub_eq_add_neg]

theorem PVal.smul_num (q a : ℚ) :
    PVal.smul q (PVal.num a) = PVal.num (q * a) := rfl

theorem PVal.sub_nan (x : PVal) : PVal.sub x PVal.nan = PVal.nan := by
  cases x <;> rfl

theorem ffillAux_length (acc : Option ℚ) (l : List (Option ℚ)) :
    (ffillAux acc l).length = l.length := by
  induction l generalizing acc with
  | nil => rfl
  | cons x xs ih => cases x <;> simp [ffillAux, ih]

theorem ffill_length (l : List (Option ℚ)) : (ffill l).length = l.length :=
  ffillAux_length none l

theorem ffill_cons (x : Option ℚ) (xs : List (Option ℚ)) :
    ffill (x :: xs) = x :: ffillAux x xs := by
  cases x <;> rfl

theorem pctList_length (prev : Option ℚ) (l : List (Option ℚ)) :
    (pctList prev l).length = l.length := by
  induction l generalizing prev with
  | nil => rfl
  | cons x xs ih => simp [pctList, ih]

theorem pctCol_length (l : List (Option ℚ)) : (pctCol l).length = l.length := by
  cases l with
  | nil => rfl
  | cons x xs => simp [pctCol, pctList_length]

theorem fillna0_length (l : List PVal) : (fillna0 l).length = l.length := by
  simp [fillna0]

theorem cumsumFrom_length (acc : PVal) (l : List PVal) :
    (cumsumFrom acc l).length = l.length := by
  induction l generalizing acc with
  | nil => rfl
  | cons x xs ih => cases x <;> simp [cumsumFrom, ih]

theorem cumsum_length (l : List PVal) : (cumsum l).length = l.length :=
  cumsumFrom_length _ l

theorem zipWith3_length {α β γ δ : Type} (g : α → β → γ → δ) :
    ∀ (as : List α) (bs : List β) (cs : List γ),
      (zipWith3 g as bs cs).length =
        min as.length (min bs.length cs.length)
  | [], bs, cs => by
      simp [show zipWith3 g ([] : List α) bs cs = [] from rfl]
  | _ :: _, [], cs => by
      simp [show ∀ (a : α) (as : List α),
        zipWith3 g (a :: as) ([] : List β) cs = [] from fun _ _ => rfl]
  | _ :: _, _ :: _, [] => by
      simp [show ∀ (a : α) (as : List α) (b : β) (bs : List β),
        zipWith3 g (a :: as) (b :: bs) ([] : List γ) = []
        from fun _ _ _ _ => rfl]
  | a :: as, b :: bs, c :: cs => by
      simp only [zipWith3, List.length_cons, zipWith3_length g as bs cs]
      omega

theorem shiftNaN_length (n : ℕ) (l : List PVal) :
    (shiftNaN n l).length = n + (l.length - n) := by
  simp [shiftNaN]

theorem diffN_length (n : ℕ) (l : List PVal) :
    (diffN n l).length = l.length := by
  simp [diffN, shiftNaN_length]
  omega

theorem zipWith_getD {α β γ : Type} (f : α → β → γ) (da : α) (db : β)
    (dc : γ) : ∀ (l₁ : List α) (l₂ : List β) (i : ℕ),
      i < l₁.length → i < l₂.length →
      (List.zipWith f l₁ l₂).getD i dc = f (l₁.getD i da) (l₂.getD i db)
  | [], _, i, h₁, _ => by simp at h₁
  | _ :: _, [], i, _, h₂ => by simp at h₂
  | a :: as, b :: bs, 0, _, _ => rfl
  | a :: as, b :: bs, i + 1, h₁, h₂ => by
      simpa [List.zipWith] using
        zipWith_getD f da db dc as bs i (by simpa using h₁) (by simpa using h₂)

theorem zipWith3_getD {α β γ δ : Type} (g : α → β → γ → δ) (da : α) (db : β)
    (dc : γ) (dd : δ) : ∀ (as : List α) (bs : List β) (cs : List γ) (i : ℕ),
      i < as.length → i < bs.length → i < cs.length →
      (zipWith3 g as bs cs).getD i dd =
        g (as.getD i da) (bs.getD i db) (cs.getD i dc)
  | [], _, _, i, h, _, _ => by simp at h
  | _ :: _, [], _, i, _, h, _ => by simp at h
  | _ :: _, _ :: _, [], i, _, _, h => by simp at h
  | a :: as, b :: bs, c :: cs, 0, _, _, _ => rfl
  | a :: as, b :: bs, c :: cs, i + 1, h₁, h₂, h₃ => by
      simpa [zipWith3] using
        zipWith3_getD g da db dc dd as bs cs i (by simpa using h₁)
          (by simpa using h₂) (by simpa using h₃)

theorem fillna0_getD (l : List PVal) (i : ℕ) (h : i < l.length) :
    (fillna0 l).getD i PVal.nan = fillnaVal (l.getD i PVal.nan) := by
  induction l generalizing i with
  | nil => simp at h
  | cons x xs ih =>
      cases i with
      | zero => rfl
      | succ j => simpa [fillna0] using ih j (by simpa using h)

theorem pctList_getD (prev : Option ℚ) (l : List (Option ℚ)) (i : ℕ)
    (h : i < l.length) :
    (pctList prev l).getD i PVal.nan =
      pctEntry ((prev :: l).getD i none) (l.getD i none) := by
  induction l generalizing prev i with
  | nil => simp at h
  | cons x xs ih =>
      cases i with
      | zero => rfl
      | succ j => simpa [pctList] using ih x j (by simpa using h)

theorem pctCol_getD (l : List (Option ℚ)) (t : ℕ) (h1 : 1 ≤ t)
    (h2 : t < l.length) :
    (pctCol l).getD t PVal.nan =
      pctEntry (l.getD (t - 1) none) (l.getD t none) := by
  cases l with
  | nil => simp at h2
  | cons x xs =>
      cases t with
      | zero => omega
      | succ j =>
          simpa [pctCol] using pctList_getD x xs j (by simpa using h2)

theorem pctCol_getD_zero (l : List (Option ℚ)) :
    (pctCol l).getD 0 PVal.nan = PVal.nan := by
  cases l <;> rfl

theorem shiftNaN_getD (n : ℕ) (l : List PVal) (t : ℕ) (h : t < l.length) :
    (shiftNaN n l).getD t PVal.nan =
      if t < n then PVal.nan else l.getD (t - n) PVal.nan := by
  by_cases hc : t < n
  · rw [if_pos hc, shiftNaN, List.getD_append _ _ _ _ (by simpa using hc),
      List.getD_eq_getElem?_getD, List.getElem?_replicate, if_pos hc]
    rfl
  · rw [if_neg hc, shiftNaN,
      List.getD_append_right _ _ _ _ (by simpa using Nat.le_of_not_lt hc),
      List.length_replicate, List.getD_eq_getElem?_getD, List.getElem?_take,
      if_pos (by omega), ← List.getD_eq_getElem?_getD]

theorem diffN_getD (n : ℕ) (l : List PVal) (t : ℕ) (h : t < l.length) :
    (diffN n l).getD t PVal.nan =
      if t < n then PVal.nan
      else PVal.sub (l.getD t PVal.nan) (l.getD (t - n) PVal.nan) := by
  rw [diffN, zipWith_getD PVal.sub PVal.nan PVal.nan PVal.nan l _ t h
    (by rw [shiftNaN_length]; omega), shiftNaN_getD n l t h]
  by_cases hc : t < n
  · rw [if_pos hc, if_pos hc, PVal.sub_nan]
  · rw [if_neg hc, if_neg hc]

theorem bridgestoneFilled_length (df : RawTable) :
    (calculate_metrics df).bridgestoneFilled.length = df.length := by
  simp [calculate_metrics, ffill_length, List.length_map]

theorem costIndexChange_length (df : RawTable) :
    (calculate_metrics df).costIndexChange.length = df.length := by
  simp [calculate_metrics, zipWith3_length, fillna0_length, pctCol_length,
    ffill_length, List.length_map]

theorem profitSpread_length (df : RawTable) :
    (calculate_metrics df).profitSpread.length = df.length := by
  simp [calculate_metrics, cumsum_length, zipWith3_length, fillna0_length,
    pctCol_length, ffill_length, List.length_map]

theorem spreadSlope_length (df : RawTable) :
    (calculate_metrics df).spreadSlope.length = df.length := by
  have h := profitSpread_length df
  simp only [calculate_metrics] at h ⊢
  rw [diffN_length, h]

theorem ffillAux_getD_ne_none (acc : Option ℚ) (l : List (Option ℚ)) (i : ℕ)
    (h : i < l.length) :
    (ffillAux acc l).getD i none ≠ none ↔
      acc ≠ none ∨ ∃ j, j ≤ i ∧ l.getD j none ≠ none := by
  induction l generalizing acc i with
  | nil => simp at h
  | cons x xs ih =>
      cases i with
      | zero =>
          cases x with
          | none => simp [ffillAux]
          | some v => simp [ffillAux]
      | succ i' =>
          cases x with
          | none =>
              rw [show ffillAux acc (none :: xs) =
                    acc :: ffillAux acc xs from rfl]
              rw [show (acc :: ffillAux acc xs).getD (i' + 1) none =
                    (ffillAux acc xs).getD i' none from rfl]
              rw [ih acc i' (by simpa using h)]
              constructor
              · rintro (hacc | ⟨j, hj, hobs⟩)
                · exact Or.inl hacc
                · exact Or.inr ⟨j + 1, by omega, by simpa using hobs⟩
              · rintro (hacc | ⟨j, hj, hobs⟩)
                · exact Or.inl hacc
                · cases j with
                  | zero => simp at hobs
                  | succ j' =>
                      exact Or.inr ⟨j', by omega, by simpa using hobs⟩
          | some v =>
              rw [show ffillAux acc (some v :: xs) =
                    some v :: ffillAux (some v) xs from rfl]
              rw [show (some v :: ffillAux (some v) xs).getD (i' + 1) none =
                    (ffillAux (some v) xs).getD i' none from rfl]
              rw [ih (some v) i' (by simpa using h)]
              constructor
              · rintro (hacc | ⟨j, hj, hobs⟩)
                · exact Or.inr ⟨0, by omega, by simp⟩
                · exact Or.inr ⟨j + 1, by omega, by simpa using hobs⟩
              · rintro (hacc | ⟨j, hj, hobs⟩)
                · exact Or.inl (by simp)
                · cases j with
                  | zero => exact Or.inl (by simp)
                  | succ j' =>
                      exact Or.inr ⟨j', by omega, by simpa using hobs⟩

theorem ffillAux_of_all_isSome (acc : Option ℚ) (l : List (Option ℚ))
    (h : l.all Option.isSome = true) : ffillAux acc l = l := by
  induction l generalizing acc with
  | nil => rfl
  | cons x xs ih =>
      simp only [List.all_cons, Bool.and_eq_true] at h
      cases x with
      | none => simp at h
      | some v => simp [ffillAux, ih (some v) h.2]

theorem ffill_of_all_isSome (l : List (Option ℚ))
    (h : l.all Option.isSome = true) : ffill l = l :=
  ffillAux_of_all_isSome none l h

theorem classifyCore_nan_slope (S : PVal) (L : Bool) :
    classifyCore S PVal.nan L =
      if S.lt0 then ("🔴 **避開/賣出**", "成本大漲吞噬利潤", 16711680)
      else ("⚪ **中立震盪**", "無明確方向", 12370112) := by
  simp [classifyCore, PVal.gt0, PVal.lt0]

theorem rubberSteps_length (noise : ℕ → ℚ) (p : ℚ) :
    ∀ n, (rubberSteps noise p n).length = n + 1
  | 0 => rfl
  | n + 1 => by
      simp [rubberSteps, rubberSteps_length noise p n]

theorem rubberSteps_head? (noise : ℕ → ℚ) (p : ℚ) :
    ∀ n, (rubberSteps noise p n).head? = some p
  | 0 => rfl
  | n + 1 => by
      rw [rubberSteps, List.concat_eq_append, List.head?_append,
        rubberSteps_head? noise p n]
      rfl

theorem rubberSteps_getLastD (noise : ℕ → ℚ) (p : ℚ) :
    ∀ n, (rubberSteps noise p n).getLastD p =
      p - ∑ i ∈ Finset.range n, noise i
  | 0 => by simp [rubberSteps]
  | n + 1 => by
      rw [rubberSteps, List.concat_eq_append, List.getLastD_concat,
        rubberSteps_getLastD noise p n, Finset.sum_range_succ]
      ring

theorem rubberSteps_getD (noise : ℕ → ℚ) (p : ℚ) :
    ∀ n k, k ≤ n → (rubberSteps noise p n).getD k 0 =
      p - ∑ i ∈ Finset.range k, noise i
  | 0, 0, _ => by simp [rubberSteps]
  | 0, k + 1, h => by omega
  | n + 1, k, h => by
      rw [rubberSteps, List.concat_eq_append]
      by_cases hk : k ≤ n
      · rw [List.getD_append _ _ _ _ (by rw [rubberSteps_length]; omega)]
        exact rubberSteps_getD noise p n k hk
      · have hk1 : k = n + 1 := by omega
        subst hk1
        rw [List.getD_append_right _ _ _ _ (by rw [rubberSteps_length])]
        rw [rubberSteps_length]
        simp [Finset.sum_range_succ]
        rw [← List.getLastD_eq_getLast?, rubberSteps_getLastD noise p n]
        ring

theorem pctCol_cons (x : Option ℚ) (xs : List (Option ℚ)) :
    pctCol (x :: xs) = PVal.nan :: pctList x xs := rfl

theorem fillna0_cons (v : PVal) (l : List PVal) :
    fillna0 (v :: l) = fillnaVal v :: fillna0 l := rfl

theorem zipWith3_cons {α β γ δ : Type} (g : α → β → γ → δ) (a : α) (b : β)
    (c : γ) (as : List α) (bs : List β) (cs : List γ) :
    zipWith3 g (a :: as) (b :: bs) (c :: cs) = g a b c :: zipWith3 g as bs cs :=
  rfl

theorem cumsumFrom_cons_num (acc : PVal) (q : ℚ) (l : List PVal) :
    cumsumFrom acc (PVal.num q :: l) =
      (acc.add (PVal.num q)) :: cumsumFrom (acc.add (PVal.num q)) l := rfl

theorem costCell_zero :
    costCell (PVal.num 0) (PVal.num 0) (PVal.num 0) = PVal.num 0 := by
  simp [costCell, PVal.smul, PVal.add]

/-- C1 (confirmed). The signal classifier is total and deterministic: it is
a pure function, and on every defined latest spread `S`, defined latest
slope `K` and leader flag, its output triple (signal title, reason text,
color code) is exactly the one the spec's §4.4 top-down first-match
decision table prescribes — Buy when `S>0 ∧ K>0 ∧ leader_rising`, Hold when
`S>0 ∧ K<0`, Sell when `S<0`, Neutral otherwise. Totality and determinism
hold because `classifyCore` is a total function of exactly these three
inputs; `specSignal` (transcribed from the spec's words) always yields
exactly one of the four signals. -/
theorem claim_c1_classifier_matches_decision_table (S K : ℚ) (L : Bool) :
    classifyCore (PVal.num S) (PVal.num K) L =
      tripleOfSignal (specSignal S K L) := by
  simp only [classifyCore, PVal.gt0, PVal.lt0, specSignal,
    Bool.and_eq_true, decide_eq_true_eq]
  split_ifs <;> simp_all [tripleOfSignal]

/-- C5 (confirmed). At every date, if the day-over-day percent changes of
the three cost factors (after `fillna(0)`) are the numbers `r` (rubber),
`o` (oil) and `f` (FX), then `Cost_Index_Change` at that date is exactly
`0.4*r + 0.3*o + 0.3*f` (exact rational arithmetic models "within floating
tolerance"). -/
theorem claim_c5_composite_weighted_sum (df : RawTable) (t : ℕ) (r o f : ℚ)
    (ht : t < df.length)
    (hr : (fillna0 (pctCol (ffill (df.map Row.rubber)))).getD t PVal.nan =
      PVal.num r)
    (ho : (fillna0 (pctCol (ffill (df.map Row.oil)))).getD t PVal.nan =
      PVal.num o)
    (hf : (fillna0 (pctCol (ffill (df.map Row.fx)))).getD t PVal.nan =
      PVal.num f) :
    (calculate_metrics df).costIndexChange.getD t PVal.nan =
      PVal.num (0.4 * r + 0.3 * o + 0.3 * f) := by
  have hlr : t < (fillna0 (pctCol (ffill (df.map Row.rubber)))).length := by
    rw [fillna0_length, pctCol_length, ffill_length, List.length_map]
    exact ht
  have hlo : t < (fillna0 (pctCol (ffill (df.map Row.oil)))).length := by
    rw [fillna0_length, pctCol_length, ffill_length, List.length_map]
    exact ht
  have hlf : t < (fillna0 (pctCol (ffill (df.map Row.fx)))).length := by
    rw [fillna0_length, pctCol_length, ffill_length, List.length_map]
    exact ht
  simp only [calculate_metrics]
  rw [zipWith3_getD costCell PVal.nan PVal.nan PVal.nan PVal.nan _ _ _ t
    hlr hlo hlf, hr, ho, hf]
  simp only [costCell, PVal.smul_num, PVal.add_num, PVal.num.injEq]

/-- Witness for C5 on `tblPct2`: rubber change `+100%`, oil `+200%`,
FX `-50%` give composite change `0.4*1 + 0.3*2 + 0.3*(-1/2) = 17/20`. -/
theorem claim_c5_witness :
    (calculate_metrics tblPct2).costIndexChange.getD 1 PVal.nan =
      PVal.num (17 / 20) := by
  have h := claim_c5_composite_weighted_sum tblPct2 1 1 2 (-(1 / 2))
    (by norm_num [tblPct2])
    (by norm_num [tblPct2, ffill, ffillAux, pctCol, pctList, pctEntry,
      fillna0, fillnaVal, List.getD])
    (by norm_num [tblPct2, ffill, ffillAux, pctCol, pctList, pctEntry,
      fillna0, fillnaVal, List.getD])
    (by norm_num [tblPct2, ffill, ffillAux, pctCol, pctList, pctEntry,
      fillna0, fillnaVal, List.getD])
  rw [h]
  norm_num

/-- C6 (confirmed). For every non-empty input table, `Profit_Spread` at the
first date of the filled view is exactly 0: the first-row percent change is
`NaN`, `fillna(0)` turns it into 0, and both cumulative sums therefore
start at 0. -/
theorem claim_c6_spread_zero_at_first_date (df : RawTable)
    (h : 0 < df.length) :
    (calculate_metrics df).profitSpread.getD 0 PVal.nan = PVal.num 0 := by
  cases df with
  | nil => simp at h
  | cons row rest =>
      simp only [calculate_metrics, List.map_cons, ffill_cons, pctCol_cons,
        fillna0_cons]
      norm_num [fillnaVal, zipWith3_cons, costCell_zero, cumsum,
        cumsumFrom_cons_num, PVal.add, List.zipWith, PVal.sub, PVal.neg,
        List.getD]

/-- Witness for C6 on the concrete table `tblPct2`. -/
theorem claim_c6_witness :
    (calculate_metrics tblPct2).profitSpread.getD 0 PVal.nan = PVal.num 0 :=
  claim_c6_spread_zero_at_first_date tblPct2 (by norm_num [tblPct2])

/-- C7 (confirmed). For every row index `t` of the table, `Spread_Slope[t]`
is `NaN` (pandas' encoding of "absent") when `t < 5`, and equals
`Profit_Spread[t] - Profit_Spread[t-5]` (IEEE subtraction) when `t ≥ 5` —
exactly `Profit_Spread.diff(5)`. -/
theorem claim_c7_slope_window (df : RawTable) (t : ℕ) (ht : t < df.length) :
    (calculate_metrics df).spreadSlope.getD t PVal.nan =
      if t < 5 then PVal.nan
      else PVal.sub ((calculate_metrics df).profitSpread.getD t PVal.nan)
        ((calculate_metrics df).profitSpread.getD (t - 5) PVal.nan) := by
  have hl : t < (calculate_metrics df).profitSpread.length := by
    rw [profitSpread_length]
    exact ht
  exact diffN_getD 5 _ t hl

/-- Witness for C7 on `tblLeader6` at `t = 5` (and the absence at
`t = 4`). -/
theorem claim_c7_witness :
    (calculate_metrics tblLeader6).spreadSlope.getD 5 PVal.nan =
      PVal.sub ((calculate_metrics tblLeader6).profitSpread.getD 5 PVal.nan)
        ((calculate_metrics tblLeader6).profitSpread.getD 0 PVal.nan) ∧
    (calculate_metrics tblLeader6).spreadSlope.getD 4 PVal.nan = PVal.nan := by
  constructor
  · have h := claim_c7_slope_window tblLeader6 5 (by norm_num [tblLeader6])
    simpa using h
  · have h := claim_c7_slope_window tblLeader6 4 (by norm_num [tblLeader6])
    simpa using h

/-- C2 counterexample. On the 5-row table `tblSell5` (fewer than `N+1 = 6`
rows, so the latest `Spread_Slope` is `NaN`), the classifier does NOT fall
back to Neutral with reason "insufficient history": it returns the Sell
triple, whose reason text is the cost-erosion message. And on the 4-row
prefix `tblSell4`, `analyze_strategy`'s `iloc[-5]` raises (modelled
`none`), which `run` turns into `sys.exit(1)` — insufficient history IS
fatal there. -/
theorem claim_c2_counterexample :
    analyze_strategy (calculate_metrics tblSell5) =
      some ("🔴 **避開/賣出**", "成本大漲吞噬利潤", 16711680) ∧
    analyze_strategy (calculate_metrics tblSell5) ≠
      some ("⚪ **中立震盪**", "無明確方向", 12370112) ∧
    analyze_strategy (calculate_metrics tblSell4) = none := by
  have h : analyze_strategy (calculate_metrics tblSell5) =
      some ("🔴 **避開/賣出**", "成本大漲吞噬利潤", 16711680) := by
    norm_num [analyze_strategy, calculate_metrics, tblSell5, leaderTrendOf,
      classifyCore, optGt, PVal.gt0, PVal.lt0, ffill, ffillAux, pctCol,
      pctList, pctEntry, fillna0, fillnaVal, zipWith3, costCell, PVal.smul,
      PVal.add, PVal.sub, PVal.neg, cumsum, cumsumFrom, diffN, shiftNaN,
      List.zipWith, List.getD, List.getElem?_cons]
  refine ⟨h, ?_, ?_⟩
  · rw [h]
    decide
  · have hlen : (calculate_metrics tblSell4).bridgestoneFilled.length = 4 := by
      rw [bridgestoneFilled_length]
      norm_num [tblSell4, tblSell5]
    simp only [analyze_strategy, hlen]
    norm_num

/-- C2 as amended (proved): with exactly 5 rows the latest slope is `NaN`,
both `NaN` comparisons are false, and the classifier returns Sell when the
latest spread is negative and otherwise the Neutral triple with reason
"無明確方向" — the reason string "insufficient history" is never produced.
With fewer than 5 rows `analyze_strategy` raises `IndexError` (modelled
`none`) and the run aborts with exit code 1, so insufficient history is
fatal below 5 rows. -/
theorem claim_c2_amended (df : RawTable) :
    (df.length = 5 →
      analyze_strategy (calculate_metrics df) =
        some (if ((calculate_metrics df).profitSpread.getD 4 PVal.nan).lt0
              then ("🔴 **避開/賣出**", "成本大漲吞噬利潤", 16711680)
              else ("⚪ **中立震盪**", "無明確方向", 12370112))) ∧
    (df.length < 5 → analyze_strategy (calculate_metrics df) = none) := by
  constructor
  · intro h5
    have hbf : (calculate_metrics df).bridgestoneFilled.length = 5 := by
      rw [bridgestoneFilled_length, h5]
    have hps : (calculate_metrics df).profitSpread.length = 5 := by
      rw [profitSpread_length, h5]
    have hslope :
        (calculate_metrics df).spreadSlope.getD 4 PVal.nan = PVal.nan := by
      have h := diffN_getD 5 (calculate_metrics df).profitSpread 4
        (by rw [hps]; omega)
      simpa using h
    rw [List.getD_eq_getElem?_getD] at hslope
    simp only [analyze_strategy, hbf]
    norm_num [hslope, classifyCore_nan_slope]
  · intro h4
    have hbf : (calculate_metrics df).bridgestoneFilled.length = df.length :=
      bridgestoneFilled_length df
    simp only [analyze_strategy, hbf]
    rw [if_neg (by omega)]

/-- Witness for the amended C2 at the concrete tables `tblSell5` (5 rows)
and `tblSell4` (4 rows). -/
theorem claim_c2_witness :
    analyze_strategy (calculate_metrics tblSell5) =
      some (if ((calculate_metrics tblSell5).profitSpread.getD 4 PVal.nan).lt0
            then ("🔴 **避開/賣出**", "成本大漲吞噬利潤", 16711680)
            else ("⚪ **中立震盪**", "無明確方向", 12370112)) ∧
    analyze_strategy (calculate_metrics tblSell4) = none :=
  ⟨(claim_c2_amended tblSell5).1 (by norm_num [tblSell5]),
   (claim_c2_amended tblSell4).2 (by norm_num [tblSell4, tblSell5])⟩

/-- C3 counterexample. On the fully observed 6-row table `tblLeader6`
(leader prices 10, 5, 6, 6, 6, 7) the classifier's leader-trend input is
`true` (it compares `iloc[-1] = 7` with `iloc[-5] = 5`, four rows earlier,
on the forward-filled column), while the claim's condition — raw price at
the latest date exceeds the raw price N = 5 rows earlier (`7 > 10`) — is
`false`. So the claimed iff fails at this input. -/
theorem claim_c3_counterexample :
    leaderTrendOf (calculate_metrics tblLeader6) = true ∧
    specLeaderRising tblLeader6 = false := by
  constructor
  · norm_num [leaderTrendOf, calculate_metrics, tblLeader6, ffill, ffillAux,
      optGt, List.getD]
  · norm_num [specLeaderRising, tblLeader6, optGt, List.getD]

/-- C3 as amended (proved). The classifier's `leader_rising` input compares
the forward-filled leader column at the last row with the row at position
`iloc[-5]` — i.e. 4 rows earlier, not 5 — and when the leader column has no
missing cells this is exactly "raw price at the latest date exceeds the raw
price 4 rows earlier". -/
theorem claim_c3_amended (df : RawTable) (_h : 5 ≤ df.length) :
    (leaderTrendOf (calculate_metrics df) =
      optGt ((ffill (df.map Row.bridgestone)).getD (df.length - 1) none)
        ((ffill (df.map Row.bridgestone)).getD (df.length - 5) none)) ∧
    ((df.map Row.bridgestone).all Option.isSome = true →
      leaderTrendOf (calculate_metrics df) =
        optGt ((df.map Row.bridgestone).getD (df.length - 1) none)
          ((df.map Row.bridgestone).getD (df.length - 5) none)) := by
  have hb : (calculate_metrics df).bridgestoneFilled =
      ffill (df.map Row.bridgestone) := rfl
  have hlen : (calculate_metrics df).bridgestoneFilled.length = df.length :=
    bridgestoneFilled_length df
  constructor
  · rw [leaderTrendOf, hlen, hb]
  · intro hall
    rw [leaderTrendOf, hlen, hb, ffill_of_all_isSome _ hall]

/-- Witness for the amended C3 at the concrete table `tblLeader6`:
`leader_rising` is the raw comparison of row 5 against row 1 (4 rows
earlier). -/
theorem claim_c3_witness :
    leaderTrendOf (calculate_metrics tblLeader6) =
      optGt ((tblLeader6.map Row.bridgestone).getD 5 none)
        ((tblLeader6.map Row.bridgestone).getD 1 none) := by
  have h := (claim_c3_amended tblLeader6 (by norm_num [tblLeader6])).2
    (by norm_num [tblLeader6])
  norm_num [tblLeader6] at h
  norm_num [tblLeader6]
  exact h

/-- C4 counterexample. In `tblLateRubber` the leader column is observed at
row 0 (so row 1 is strictly after the first date at which any series has an
observation), yet the forward-filled rubber column is still missing at
row 1: `ffill` cannot fill cells before a column's own first observation,
and the source performs no back-fill. -/
theorem claim_c4_counterexample :
    (tblLateRubber.map Row.bridgestone).getD 0 none ≠ none ∧
    (ffill (tblLateRubber.map Row.rubber)).getD 1 none = none := by
  constructor
  · decide
  · decide

/-- C4 as amended (proved). The filled view is column-local: a cell of the
forward-filled column is present exactly when that same column has an
observation at or before that row. Cells before a column's own first
observation remain missing (no back-fill), even strictly after the first
date at which some other series has an observation. -/
theorem claim_c4_amended (col : List (Option ℚ)) (i : ℕ)
    (h : i < col.length) :
    (ffill col).getD i none ≠ none ↔
      ∃ j, j ≤ i ∧ col.getD j none ≠ none := by
  have hh := ffillAux_getD_ne_none none col i h
  simpa [ffill] using hh

/-- Witness for the amended C4: a gap before the first observation stays
missing at row 0 but the row-1 cell of `[none, some 2]` is present after
`ffill`. -/
theorem claim_c4_witness :
    (ffill [none, some (2 : ℚ)]).getD 1 none ≠ none :=
  (claim_c4_amended [none, some 2] 1 (by norm_num)).mpr
    ⟨1, le_refl 1, by decide⟩

/-- C8 counterexample. With a prior price of exactly 0 and a nonzero
current price (column `[0, 1]`), the percent change after `fillna(0)` is
`+∞` (pandas' `1/0 - 1`), not 0: only the `0/0` case yields `NaN` and gets
filled to 0. No division error is raised, but the claimed value is wrong. -/
theorem claim_c8_counterexample :
    (fillna0 (pctCol [some (0 : ℚ), some 1])).getD 1 PVal.nan = PVal.pinf ∧
    PVal.pinf ≠ PVal.num 0 := by
  constructor
  · norm_num [pctCol, pctList, pctEntry, fillna0, fillnaVal, List.getD]
  · decide

/-- C8 as amended (proved). When the prior price is exactly 0, no division
error is raised (the computation is total), but the percent change for
that row is 0 only when the current price is also 0 (`0/0` gives `NaN`,
which `fillna(0)` turns into 0); a nonzero current price gives `+∞` or
`-∞`, which `fillna(0)` leaves untouched. -/
theorem claim_c8_amended (l : List (Option ℚ)) (t : ℕ) (q : ℚ)
    (h1 : 1 ≤ t) (h2 : t < l.length)
    (hprev : l.getD (t - 1) none = some 0)
    (hcurr : l.getD t none = some q) :
    (fillna0 (pctCol l)).getD t PVal.nan =
      if q = 0 then PVal.num 0
      else if 0 < q then PVal.pinf else PVal.ninf := by
  rw [fillna0_getD _ t (by rw [pctCol_length]; exact h2),
    pctCol_getD l t h1 h2, hprev, hcurr]
  rcases lt_trichotomy q 0 with hq | hq | hq
  · rw [if_neg (by linarith), if_neg (by linarith)]
    simp [pctEntry, fillnaVal, hq, not_lt_of_gt hq]
  · subst hq
    simp [pctEntry, fillnaVal]
  · rw [if_neg (by linarith), if_pos hq]
    simp [pctEntry, fillnaVal, hq]

/-- Witness for the amended C8: prior price 0, current price `-3` gives
`-∞`. -/
theorem claim_c8_witness :
    (fillna0 (pctCol [some (0 : ℚ), some (-3)])).getD 1 PVal.nan =
      PVal.ninf := by
  have h := claim_c8_amended [some 0, some (-3)] 1 (-3) (le_refl 1)
    (by norm_num) (by decide) (by decide)
  norm_num at h
  exact h

/-- C9 (confirmed). `get_real_latest_data` on one raw column: with fewer
than two non-missing observations it returns the sentinel
`(0.0, 0.0, "N/A")` (a value, not an exception); otherwise it returns the
value of the last non-missing observation, the percent change
`(latest - previous)/previous * 100` versus the immediately prior
non-missing observation, and that observation's date — never a
forward-filled value, since only cells present in the raw column are
consulted. -/
theorem claim_c9_latest_resolver (col : List (String × Option ℚ)) :
    ((col.filterMap fun p => p.2.map fun v => (p.1, v)).length < 2 →
      get_real_latest_data col = (0, PVal.num 0, "N/A")) ∧
    (∀ (init : List (String × ℚ)) (dp dl : String) (p l : ℚ),
      (col.filterMap fun p => p.2.map fun v => (p.1, v)) =
        init ++ [(dp, p), (dl, l)] →
      p ≠ 0 →
      get_real_latest_data col = (l, PVal.num ((l - p) / p * 100), dl)) := by
  constructor
  · intro h
    rw [get_real_latest_data, if_pos h]
  · intro init dp dl p l heq hp
    rw [get_real_latest_data]
    rw [if_neg (by rw [heq]; simp)]
    simp only [heq, List.reverse_append, List.reverse_cons, List.reverse_nil,
      List.nil_append, List.cons_append, List.getD_cons_zero,
      List.getD_cons_succ]
    rw [if_neg hp]

/-- Witness for C9: on `colSkip` (observations only on 01/01 and 01/03)
the resolver skips the gap and reports `(11, +10%, "01/03")`; on `colOne`
(a single observation) it returns the sentinel. -/
theorem claim_c9_witness :
    get_real_latest_data colSkip = (11, PVal.num 10, "01/03") ∧
    get_real_latest_data colOne = (0, PVal.num 0, "N/A") := by
  constructor
  · have h := (claim_c9_latest_resolver colSkip).2 [] "01/01" "01/03" 10 11
      (by decide) (by norm_num)
    rw [h]
    norm_num
  · exact (claim_c9_latest_resolver colOne).1 (by decide)

/-- Closed form of the generated rubber series: the value `j` rows from
the start is the anchor price minus the partial sum of the remaining
draws. -/
theorem generate_rubber_series_getD (noise : ℕ → ℚ) (p : ℚ)
    (dates : List String) (j : ℕ) (hj : j < dates.length) :
    (generate_rubber_series noise dates p).getD j 0 =
      p - ∑ i ∈ Finset.range (dates.length - 1 - j), noise i := by
  rw [generate_rubber_series]
  have hlen : (rubberSteps noise p (dates.length - 1)).length =
      dates.length - 1 + 1 := rubberSteps_length _ _ _
  have hj' : j < (rubberSteps noise p (dates.length - 1)).reverse.length := by
    rw [List.length_reverse, hlen]
    omega
  rw [List.getD_eq_getElem _ _ hj', List.getElem_reverse,
    ← List.getD_eq_getElem _ 0, hlen,
    rubberSteps_getD noise p _ _ (by omega),
    show dates.length - 1 + 1 - 1 - j = dates.length - 1 - j from by omega]

/-- C10 (confirmed). `generate_rubber_series` is deterministic: the numpy
generator is re-seeded with the fixed seed 42 on every call, so the draw
stream (modelled by the `noise` parameter) is the same for every call, and
the output depends only on that stream, the number of dates and the anchor
price — two calls with equal-length date indexes and the same current
price produce identical values. The series ends exactly at the scraped
current price `p`, and each earlier value differs from the next by one
backward draw: the rubber history is a synthetic backward walk anchored at
`p`, not observed market data. -/
theorem claim_c10_rubber_series (noise : ℕ → ℚ) (p : ℚ)
    (dates dates' : List String) (hne : dates ≠ [])
    (hlen : dates.length = dates'.length) :
    generate_rubber_series noise dates p =
      generate_rubber_series noise dates' p ∧
    (generate_rubber_series noise dates p).length = dates.length ∧
    (generate_rubber_series noise dates p).getLast? = some p ∧
    (∀ j, j + 1 < dates.length →
      (generate_rubber_series noise dates p).getD j 0 =
        (generate_rubber_series noise dates p).getD (j + 1) 0 -
          noise (dates.length - 2 - j)) := by
  have hL : 0 < dates.length := List.length_pos.mpr hne
  refine ⟨?_, ?_, ?_, ?_⟩
  · rw [generate_rubber_series, generate_rubber_series, hlen]
  · rw [generate_rubber_series, List.length_reverse, rubberSteps_length]
    omega
  · rw [generate_rubber_series, List.getLast?_reverse, rubberSteps_head?]
  · intro j hj
    rw [generate_rubber_series_getD noise p dates j (by omega),
      generate_rubber_series_getD noise p dates (j + 1) (by omega),
      show dates.length - 1 - j = (dates.length - 2 - j) + 1 by omega,
      show dates.length - 1 - (j + 1) = dates.length - 2 - j by omega,
      Finset.sum_range_succ]
    ring

/-- Witness for C10: with the draw stream `noise k = k`, four dates and
anchor price 100, the two equal-length calls agree, the series is
`[97, 99, 100, 100]`, its last value is the anchor 100, and the first step
equals the next value minus draw number 2. -/
theorem claim_c10_witness :
    generate_rubber_series (fun n => (n : ℚ)) ["a", "b", "c", "d"] 100 =
      generate_rubber_series (fun n => (n : ℚ)) ["w", "x", "y", "z"] 100 ∧
    (generate_rubber_series
      (fun n => (n : ℚ)) ["a", "b", "c", "d"] 100).length = 4 ∧
    (generate_rubber_series
      (fun n => (n : ℚ)) ["a", "b", "c", "d"] 100).getLast? = some 100 ∧
    (generate_rubber_series (fun n => (n : ℚ)) ["a", "b", "c", "d"] 100).getD
        0 0 =
      (generate_rubber_series (fun n => (n : ℚ)) ["a", "b", "c", "d"] 100).getD
        1 0 - 2 := by
  have h := claim_c10_rubber_series (fun n => (n : ℚ)) 100
    ["a", "b", "c", "d"] ["w", "x", "y", "z"] (by simp) rfl
  refine ⟨h.1, by simpa using h.2.1, h.2.2.1, ?_⟩
  have h4 := h.2.2.2 0 (by norm_num)
  norm_num at h4
  exact h4
